import Mathlib

/-!
Verification of `better_exceptions/formatter.py` (Delgan/better-exceptions).

Shallow embedding of `ExceptionFormatter`: value formatting (`format_value`),
identifier resolution against a frame scope (`get_relevant_values`), the
per-frame annotation layout loop of `format_traceback_frame`, and the
`cause`/`context` chain traversal of `format_exception`.

Strings are modelled as `List Char` (Python strings are sequences of code
points).  Color is modelled off (`colored=False`): `colorize` then strips the
markup tags, so the pipe/cap/value fragments are the raw glyph strings.
-/

namespace BetterExceptions

/-- A Python value as seen by the formatter: its `repr` (none when `repr`
raises), the name of its type, and its attributes.  Only `repr` and the type
name are ever inspected by the code in `formatter.py`; attributes are carried
so that scopes holding objects with attributes can be written down. -/
inductive PyValue where
  | obj : Option (List Char) → List Char → List (String × PyValue) → PyValue

/-- The `repr` of a value; `none` models `repr(v)` raising. -/
def PyValue.reprR : PyValue → Option (List Char)
  | .obj r _ _ => r

/-- The value's type name (`type(v).__name__`). -/
def PyValue.typeName : PyValue → List Char
  | .obj _ t _ => t

/-- Module constant `MAX_LENGTH = 128`, the default `max_length`. -/
def MAX_LENGTH : Nat := 128

/-- The fallback text used by `format_value` when `repr(v)` raises:
`'<unprintable %s object>' % type(v).__name__`. -/
def unprintable (typeName : List Char) : List Char :=
  String.toList "<unprintable " ++ typeName ++ String.toList " object>"

/-- The truncation step of `format_value`: if `max_length is not None` and
`len(v) > max_length`, keep the first `max_length` characters and append
`'...'`. -/
def truncateRepr (max_length : Option Nat) (v : List Char) : List Char :=
  match max_length with
  | some m => if m < v.length then v.take m ++ String.toList "..." else v
  | none => v

/-- `ExceptionFormatter.format_value` (formatter.py lines 86-95): `repr` the
value, falling back to the `<unprintable ...>` placeholder when `repr` raises,
then truncate to `max_length` characters plus an ellipsis. -/
def format_value (max_length : Option Nat) (v : PyValue) : List Char :=
  truncateRepr max_length
    (match v.reprR with
     | some r => r
     | none => unprintable v.typeName)

/-- A frame's scope: the two lookup tiers `f_locals` and `f_globals`. -/
structure Frame where
  f_locals : List (String × PyValue)
  f_globals : List (String × PyValue)

/-- Dictionary lookup (`name in d` / `d.get(name, None)`) on one tier. -/
def lookupVar : List (String × PyValue) → String → Option PyValue
  | [], _ => none
  | (k, v) :: rest, nm => if k = nm then some v else lookupVar rest nm

/-- One entry of the `values` list built by `get_relevant_values`: the Python
tuple `(value, index, self.format_value(val))` — the token's text, its column
in the source line, and the formatted value. -/
structure RV where
  name : String
  col : Nat
  rendered : List Char
deriving DecidableEq

/-- One iteration of the loop in `get_relevant_values` (formatter.py lines
101-108): a name token `(index, value)` is looked up first in `f_locals`,
then in `f_globals`; a hit in either appends `(value, index, format_value)`;
a miss in both appends nothing. -/
def resolve_name (max_length : Option Nat) (frame : Frame) (tok : Nat × String) : Option RV :=
  match lookupVar frame.f_locals tok.2 with
  | some val => some ⟨tok.2, tok.1, format_value max_length val⟩
  | none =>
    match lookupVar frame.f_globals tok.2 with
    | some val => some ⟨tok.2, tok.1, format_value max_length val⟩
    | none => none

/-- The sort key of `values.sort(key=lambda e: e[1])`: compare by column. -/
def colLe (a b : RV) : Prop := a.col ≤ b.col

instance : DecidableRel colLe := fun a b => Nat.decLe a.col b.col

instance : IsTotal RV colLe := ⟨fun a b => Nat.le_total a.col b.col⟩

instance : IsTrans RV colLe := ⟨fun _ _ _ h h' => Nat.le_trans h h'⟩

/-- `values.sort(key=lambda e: e[1])` (formatter.py line 110): Python's
`list.sort` is a stable sort; a stable insertion sort by column models it. -/
def sortByCol (l : List RV) : List RV := List.insertionSort colLe l

/-- `ExceptionFormatter.get_relevant_values` (formatter.py lines 97-111).
The token stream of `get_relevant_names` is supplied as `names`, a list of
`(column, text)` name tokens.  Modelled from the spec: the Tokenizer
(`highlighter.py`, not part of the formatter source) classifies a source line
into tokens with a column offset each; `get_relevant_names` keeps exactly the
name tokens, in scan order with non-decreasing columns. -/
def get_relevant_values (max_length : Option Nat) (names : List (Nat × String))
    (frame : Frame) : List RV :=
  sortByCol (names.filterMap (resolve_name max_length frame))

/-! ### Annotation layout (format_traceback_frame) -/

/-- `u' ' * n`. -/
def spaces (n : Nat) : List Char := List.replicate n ' '

/-- The inner loop of `format_traceback_frame` (formatter.py lines 238-240):
starting from `line = ''` and `index = 0`, for each pipe column `pc` append
`' ' * (pc - index)` then the pipe glyph and set `index = pc + 1`. -/
def pipesFold (pipe : List Char) (pipeCols : List Nat) : List Char × Nat :=
  pipeCols.foldl (fun st pc => (st.1 ++ spaces (pc - st.2) ++ pipe, pc + 1)) ([], 0)

/-- The body of one iteration of the outer loop of `format_traceback_frame`
(formatter.py lines 228-243) for index `i`: pipes at the columns of
`relevant_values[:i]`, then `' ' * (col - index)`, the cap glyph, one space,
and the formatted value. -/
def annot_line (pipe cap : List Char) (values : List RV) (i : Nat) : List Char :=
  let v := values.getD i ⟨"", 0, []⟩
  let st := pipesFold pipe ((values.take i).map RV.col)
  st.1 ++ spaces (v.col - st.2) ++ cap ++ [' '] ++ v.rendered

/-- The `lines` list built by `format_traceback_frame` (formatter.py lines
227-243) before `'\n    '.join(lines)`: the colorized source line, then one
annotation line per value, produced by
`for i in reversed(range(len(relevant_values)))`. -/
def frame_lines (pipe cap : List Char) (color_source : List Char) (values : List RV) :
    List (List Char) :=
  color_source :: (List.range values.length).reverse.map (annot_line pipe cap values)

/-- The spec's description of the pipe prefix: for the open values' columns,
in order, a run of spaces up to each column followed by the pipe glyph, the
cursor moving past each placed glyph. -/
def pipesSpec (pipe : List Char) : Nat → List Nat → List Char
  | _, [] => []
  | cursor, c :: cs => spaces (c - cursor) ++ pipe ++ pipesSpec pipe (c + 1) cs

/-- The cursor position after laying out pipes at the given columns, starting
from `cursor`: one past the last pipe column, or `cursor` when there is none. -/
def cursorAfter : Nat → List Nat → Nat
  | cur, [] => cur
  | _, c :: cs => cursorAfter (c + 1) cs

/-- The annotation line for value `i` as the spec words it: for each value
with a smaller index (to its left, still open), a run of spaces up to that
value's column followed by the pipe glyph; then spaces up to value `i`'s own
column, the cap glyph, a single space, and the formatted value text. -/
def annot_line_spec (pipe cap : List Char) (values : List RV) (i : Nat) : List Char :=
  let v := values.getD i ⟨"", 0, []⟩
  let cols := (values.take i).map RV.col
  pipesSpec pipe 0 cols ++ spaces (v.col - cursorAfter 0 cols) ++ cap ++ [' '] ++ v.rendered

/-! ### Exception chaining (format_exception) -/

/-- The fields of one exception object read by `format_exception`: the
`__cause__` and `__context__` links, the `__suppress_context__` flag, whether
its type `is AssertionError`, its `str()` text, and the colorized source line
its traceback's last kept frame produces (the `colored_source` result of
`format_traceback`; the frame/source data behind it is external input).
Exception objects are identified by an index below `n`; links point at
indices, `none` being Python's `None`. -/
structure ExcData (n : Nat) where
  cause : Option (Fin n)
  context : Option (Fin n)
  suppress_context : Bool
  isAssertionError : Bool
  strValue : List Char
  colored_source : List Char

/-- One fragment yielded by `format_exception`: the per-exception block
(banner + frames + title) tagged with the `args` reassignment it performed
(`some newArgs` when `value.args` was rewritten, `none` when the object was
left untouched), or one of the two fixed separator lines. -/
inductive RenderEvent (n : Nat) where
  | block : Option (Fin n) → Option (List (List Char)) → RenderEvent n
  | causeSep : RenderEvent n
  | contextSep : RenderEvent n
deriving DecidableEq

/-- `str(value)`: the exception's text, or `"None"` for `value = None`. -/
def strOfValue {n : Nat} (env : Fin n → ExcData n) : Option (Fin n) → List Char
  | some v => (env v).strValue
  | none => String.toList "None"

/-- `exc is AssertionError` for `exc = type(value)`; `type(None)` is not
`AssertionError`. -/
def isAssertionOf {n : Nat} (env : Fin n → ExcData n) : Option (Fin n) → Bool
  | some v => (env v).isAssertionError
  | none => false

/-- The `colored_source` that `format_traceback` returns for this exception's
traceback (empty for `value = None`, whose mutation branch is dead anyway). -/
def coloredSourceOf {n : Nat} (env : Fin n → ExcData n) : Option (Fin n) → List Char
  | some v => (env v).colored_source
  | none => []

/-- Formatter.py lines 313-314: `if not str(value) and exc is AssertionError:
value.args = (colored_source,)`.  Returns `some newArgs` when the reassignment
fires, `none` when the object's `args` is left as it was. -/
def assertionArgsUpdate (isAssertion : Bool) (strValue : List Char)
    (colored_source : List Char) : Option (List (List Char)) :=
  if strValue = [] ∧ isAssertion = true then some [colored_source] else none

/-- The `args` effect and block event of one `format_exception` invocation. -/
def selfBlock {n : Nat} (env : Fin n → ExcData n) (value : Option (Fin n)) : RenderEvent n :=
  RenderEvent.block value
    (assertionArgsUpdate (isAssertionOf env value) (strOfValue env value)
      (coloredSourceOf env value))

/-- Termination measure for the chain traversal: how many potential chain
links (members of `Option (Fin n)`) are still outside the seen-set once
`value` has been added (`_seen.add(value)`). -/
def excMeasure {n : Nat} (value : Option (Fin n)) (seen : Finset (Option (Fin n))) : Nat :=
  ((Finset.univ : Finset (Option (Fin n))) \ insert value seen).card

/-- `ExceptionFormatter.format_exception` (formatter.py lines 289-339), with
the seen-set passed explicitly (the caller's entry point passes `{None}`,
matching `_seen = {None}` for `_seen=None`).  Returns the yielded fragments
(abstracted to `RenderEvent`s) and the final seen-set; the Python `_seen` is
one shared mutable set, and since each invocation touches it only before its
single recursive call, threading the child's result set is equivalent. -/
def format_exception {n : Nat} (env : Fin n → ExcData n) (value : Option (Fin n))
    (seen : Finset (Option (Fin n))) : List (RenderEvent n) × Finset (Option (Fin n)) :=
  match value with
  | none => ([selfBlock env none], insert none seen)
  | some v =>
    if h1 : (env v).cause ∉ insert (some v) seen then
      let r := format_exception env (env v).cause (insert (some v) seen)
      (r.1 ++ [RenderEvent.causeSep, selfBlock env (some v)], r.2)
    else if h2 : (env v).context ∉ insert (some v) seen ∧ (env v).suppress_context = false then
      let r := format_exception env (env v).context (insert (some v) seen)
      (r.1 ++ [RenderEvent.contextSep, selfBlock env (some v)], r.2)
    else
      ([selfBlock env (some v)], insert (some v) seen)
termination_by excMeasure value seen
decreasing_by
  · unfold excMeasure
    rw [Finset.card_sdiff (Finset.subset_univ _), Finset.card_sdiff (Finset.subset_univ _),
      Finset.card_univ]
    have hcard := Finset.card_insert_of_not_mem h1
    have hle := Finset.card_le_univ (insert ((env v).cause) (insert (some v) seen))
    omega
  · unfold excMeasure
    rw [Finset.card_sdiff (Finset.subset_univ _), Finset.card_sdiff (Finset.subset_univ _),
      Finset.card_univ]
    have hcard := Finset.card_insert_of_not_mem h2.1
    have hle := Finset.card_le_univ (insert ((env v).context) (insert (some v) seen))
    omega

/-- The exported entry point: `format_exception(exc, value, tb)` with the
default `_seen=None`, which initializes the seen-set to `{None}`. -/
def format_exception_entry {n : Nat} (env : Fin n → ExcData n) (value : Option (Fin n)) :
    List (RenderEvent n) × Finset (Option (Fin n)) :=
  format_exception env value {none}

/-! ### Concrete instances used by the claims -/

/-- The object bound to `foo`: it has an attribute `bar` and nothing else. -/
def barVal : PyValue := .obj (some (String.toList "<Bar>")) (String.toList "Bar") []

/-- An object whose attribute `bar` is `barVal`; `barVal` lacks `baz`. -/
def fooVal : PyValue := .obj (some (String.toList "<Foo>")) (String.toList "Foo") [("bar", barVal)]

/-- A frame where `foo` is a local binding and nothing else is bound. -/
def frameC1 : Frame := ⟨[("foo", fooVal)], []⟩

/-- The name tokens of the source line `foo.bar.baz`: `foo` at column 0,
`bar` at column 4, `baz` at column 8. -/
def namesC1 : List (Nat × String) := [(0, "foo"), (4, "bar"), (8, "baz")]

/-- A frame binding `x` in both tiers (to different values) and nothing else. -/
def frameW : Frame :=
  ⟨[("x", .obj (some ['1']) (String.toList "int") [])],
   [("x", .obj (some ['2']) (String.toList "int") [])]⟩

/-- The local value of `x` in `frameW`. -/
def localVal : PyValue := .obj (some ['1']) (String.toList "int") []

/-- A value whose `repr` raises. -/
def badVal : PyValue := .obj none (String.toList "Foo") []

/-- Three resolved values at columns 2, 5 and 9 with one-character texts. -/
def valsC2 : List RV := [⟨"a", 2, ['1']⟩, ⟨"b", 5, ['2']⟩, ⟨"c", 9, ['3']⟩]

/-- Two exceptions whose `__context__` links form a cycle: each is the other's
context, neither has a cause, neither suppresses its context. -/
def envCyc : Fin 2 → ExcData 2 := fun i =>
  match i with
  | ⟨0, _⟩ => ⟨none, some 1, false, false, ['A'], ['a']⟩
  | ⟨_ + 1, _⟩ => ⟨none, some 0, false, false, ['B'], ['b']⟩

/-- A single exception with no cause and no context. -/
def envLone : Fin 1 → ExcData 1 := fun _ => ⟨none, none, false, false, ['x'], ['s']⟩

/-- Exception 0 has both a cause and a context (both exception 1). -/
def envBoth : Fin 2 → ExcData 2 := fun i =>
  match i with
  | ⟨0, _⟩ => ⟨some 1, some 1, false, false, ['A'], ['a']⟩
  | ⟨_ + 1, _⟩ => ⟨none, none, false, false, ['B'], ['b']⟩

/-- Exception 0 has no cause, a context (exception 1), and suppresses it. -/
def envSupp : Fin 2 → ExcData 2 := fun i =>
  match i with
  | ⟨0, _⟩ => ⟨none, some 1, true, false, ['A'], ['a']⟩
  | ⟨_ + 1, _⟩ => ⟨none, none, false, false, ['B'], ['b']⟩

/-- Exception 0 has no cause and an unsuppressed context (exception 1). -/
def envCtx : Fin 2 → ExcData 2 := fun i =>
  match i with
  | ⟨0, _⟩ => ⟨none, some 1, false, false, ['A'], ['a']⟩
  | ⟨_ + 1, _⟩ => ⟨none, none, false, false, ['B'], ['b']⟩

/-- Two structurally-equal but distinct exception objects: ids 0 and 1 carry
identical flag, message and source fields; 0's `__cause__` is 1. -/
def envPair (isA : Bool) (sv cs : List Char) : Fin 2 → ExcData 2 := fun i =>
  match i with
  | ⟨0, _⟩ => ⟨some 1, none, false, isA, sv, cs⟩
  | ⟨_ + 1, _⟩ => ⟨none, none, false, isA, sv, cs⟩

/-- A bare `assert False` style exception: `AssertionError` with empty
message. -/
def envAssert : Fin 1 → ExcData 1 := fun _ => ⟨none, none, false, true, [], ['c']⟩

/-! ### Theorems -/

theorem excMeasure_lt {n : Nat} {c value : Option (Fin n)} {seen : Finset (Option (Fin n))}
    (h : c ∉ insert value seen) : excMeasure c (insert value seen) < excMeasure value seen := by
  unfold excMeasure
  rw [Finset.card_sdiff (Finset.subset_univ _), Finset.card_sdiff (Finset.subset_univ _),
    Finset.card_univ]
  have hcard := Finset.card_insert_of_not_mem h
  have hle := Finset.card_le_univ (insert c (insert value seen))
  omega

theorem format_exception_none {n : Nat} (env : Fin n → ExcData n)
    (seen : Finset (Option (Fin n))) :
    format_exception env none seen = ([selfBlock env none], insert none seen) := by
  rw [format_exception]

theorem format_exception_causeBranch {n : Nat} (env : Fin n → ExcData n) (v : Fin n)
    (seen : Finset (Option (Fin n))) (h1 : (env v).cause ∉ insert (some v) seen) :
    format_exception env (some v) seen =
      ((format_exception env (env v).cause (insert (some v) seen)).1
         ++ [RenderEvent.causeSep, selfBlock env (some v)],
       (format_exception env (env v).cause (insert (some v) seen)).2) := by
  rw [format_exception]
  simp only [dif_pos h1]

theorem format_exception_contextBranch {n : Nat} (env : Fin n → ExcData n) (v : Fin n)
    (seen : Finset (Option (Fin n))) (h1 : (env v).cause ∈ insert (some v) seen)
    (h2 : (env v).context ∉ insert (some v) seen) (h3 : (env v).suppress_context = false) :
    format_exception env (some v) seen =
      ((format_exception env (env v).context (insert (some v) seen)).1
         ++ [RenderEvent.contextSep, selfBlock env (some v)],
       (format_exception env (env v).context (insert (some v) seen)).2) := by
  rw [format_exception]
  simp only [dif_neg (not_not_intro h1), dif_pos (And.intro h2 h3)]

theorem format_exception_noBranch {n : Nat} (env : Fin n → ExcData n) (v : Fin n)
    (seen : Finset (Option (Fin n))) (h1 : (env v).cause ∈ insert (some v) seen)
    (h2 : ¬ ((env v).context ∉ insert (some v) seen ∧ (env v).suppress_context = false)) :
    format_exception env (some v) seen =
      ([selfBlock env (some v)], insert (some v) seen) := by
  rw [format_exception]
  simp only [dif_neg (not_not_intro h1), dif_neg h2]

theorem pipesFold_spec (pipe : List Char) (cols : List Nat) :
    ∀ (acc : List Char) (cur : Nat),
      cols.foldl (fun st pc => (st.1 ++ spaces (pc - st.2) ++ pipe, pc + 1)) (acc, cur)
        = (acc ++ pipesSpec pipe cur cols, cursorAfter cur cols) := by
  induction cols with
  | nil => intro acc cur; simp [pipesSpec, cursorAfter]
  | cons c cs ih =>
    intro acc cur
    rw [List.foldl_cons, ih]
    simp [pipesSpec, cursorAfter, List.append_assoc]

theorem annot_line_eq_spec (pipe cap : List Char) (values : List RV) (i : Nat) :
    annot_line pipe cap values i = annot_line_spec pipe cap values i := by
  rw [annot_line, annot_line_spec, pipesFold, pipesFold_spec]
  simp

/-- C3: the layout engine processes values from last (rightmost column) to
first, and the annotation line for value `i` consists of: for each value with
a smaller index (to its left, still open), a run of spaces up to that value's
column followed by the pipe glyph; then spaces up to value `i`'s own column,
the cap glyph, a single space, and the formatted value text
(`annot_line_spec` is that wording; `frame_lines` is the code's loop). -/
theorem layout_last_to_first (pipe cap color_source : List Char) (values : List RV) :
    frame_lines pipe cap color_source values
      = color_source ::
          (List.range values.length).reverse.map (annot_line_spec pipe cap values) := by
  rw [frame_lines]
  exact congrArg _ (List.map_congr_left fun i _ => annot_line_eq_spec pipe cap values i)

/-- C2 counterexample: for resolved values at columns 2, 5 and 9 (ascii
glyphs, value texts `1`, `2`, `3`), the topmost annotation line — the one for
the value at column 9, rendered first — carries two pipe glyphs, not zero;
it is the bottom line (for the value at column 2) that carries zero pipes. -/
theorem layout_pipes_counterexample :
    ((frame_lines ['|'] ['-', '>'] (String.toList "src") valsC2).getD 1 []).count '|' = 2
    ∧ ¬ ((frame_lines ['|'] ['-', '>'] (String.toList "src") valsC2).getD 1 []).count '|' = 0
    ∧ ((frame_lines ['|'] ['-', '>'] (String.toList "src") valsC2).getD 3 []).count '|' = 0 := by
  decide

/-- C2 amended: for a source line with exactly three resolved values at
columns 2, 5 and 9, the layout renders the value at column 9 first (topmost
annotation line) with two pipe glyphs, at columns 2 and 5; the annotation
line for the value at column 5 carries exactly one pipe glyph, at column 2;
and the annotation line for the value at column 2 carries zero pipe glyphs. -/
theorem layout_pipes_amended :
    frame_lines ['|'] ['-', '>'] (String.toList "src") valsC2
      = [String.toList "src",
         String.toList "  |  |   -> 3",
         String.toList "  |  -> 2",
         String.toList "  -> 1"] := by
  decide

theorem filter_orderedInsert_col (c : Nat) (x : RV) :
    ∀ l : List RV,
      (List.orderedInsert colLe x l).filter (fun rv => rv.col == c)
        = if x.col = c then x :: l.filter (fun rv => rv.col == c)
          else l.filter (fun rv => rv.col == c) := by
  intro l
  induction l with
  | nil => by_cases hx : x.col = c <;> simp [List.orderedInsert, List.filter_cons, beq_iff_eq, hx]
  | cons y ys ih =>
    by_cases hxy : colLe x y
    · by_cases hx : x.col = c <;> simp [List.orderedInsert, hxy, List.filter_cons, beq_iff_eq, hx]
    · by_cases hx : x.col = c
      · have hyc : ¬ y.col = c := by
          unfold colLe at hxy; omega
        simp [List.orderedInsert, hxy, List.filter_cons, beq_iff_eq, hyc, ih, hx]
      · by_cases hy : y.col = c <;>
          simp [List.orderedInsert, hxy, List.filter_cons, beq_iff_eq, hy, ih, hx]

theorem filter_sortByCol_col (c : Nat) :
    ∀ l : List RV,
      (sortByCol l).filter (fun rv => rv.col == c) = l.filter (fun rv => rv.col == c) := by
  intro l
  induction l with
  | nil => rfl
  | cons x xs ih =>
    rw [sortByCol, List.insertionSort, filter_orderedInsert_col]
    by_cases hx : x.col = c <;> simp [hx, List.filter_cons, ← ih, sortByCol]

/-- C8: for every token list and frame scope, the resolver's output is sorted
ascending by column, and the sort is stable: for each column, the values at
that column appear in the same order as in the unsorted resolution (scan)
order `names.filterMap (resolve_name ...)`. -/
theorem resolver_output_sorted_stable (max_length : Option Nat)
    (names : List (Nat × String)) (frame : Frame) :
    List.Sorted colLe (get_relevant_values max_length names frame)
    ∧ ∀ c : Nat,
        (get_relevant_values max_length names frame).filter (fun rv => rv.col == c)
          = (names.filterMap (resolve_name max_length frame)).filter (fun rv => rv.col == c) :=
  ⟨List.sorted_insertionSort colLe _, fun c => filter_sortByCol_col c _⟩

/-- C1 counterexample: on the line `foo.bar.baz` with `foo` bound (in
`frameC1`) to an object whose attribute `bar` exists and whose `bar` lacks a
`baz` attribute, the resolver annotates only `foo` at column 0; there is no
annotation at column 4 (`bar`, i.e. `foo.bar`) — the claimed `.attribute`
chain following does not happen. -/
theorem attr_chain_counterexample :
    get_relevant_values (some MAX_LENGTH) namesC1 frameC1
      = [⟨"foo", 0, String.toList "<Foo>"⟩]
    ∧ ∀ rv ∈ get_relevant_values (some MAX_LENGTH) namesC1 frameC1, rv.col ≠ 4 := by
  decide

/-- C1 amended: `get_relevant_values` performs plain scope lookups only and
follows no `.attribute` chains: for `foo.bar.baz` with `foo` bound and `bar`,
`baz` unbound in both tiers, the output is exactly one annotation for `foo`
at its column; in general every annotated name is itself bound in the frame's
locals or globals. -/
theorem attr_chain_amended :
    (get_relevant_values (some MAX_LENGTH) namesC1 frameC1
        = [⟨"foo", 0, String.toList "<Foo>"⟩])
    ∧ ∀ (max_length : Option Nat) (names : List (Nat × String)) (frame : Frame),
        ∀ rv ∈ get_relevant_values max_length names frame,
          (lookupVar frame.f_locals rv.name).isSome
            ∨ (lookupVar frame.f_globals rv.name).isSome := by
  constructor
  · decide
  · intro ml names frame rv hrv
    rw [get_relevant_values, sortByCol, List.mem_insertionSort] at hrv
    obtain ⟨tok, _, htok⟩ := List.mem_filterMap.mp hrv
    rw [resolve_name] at htok
    cases hl : lookupVar frame.f_locals tok.2 with
    | some val =>
      rw [hl] at htok
      cases htok
      left
      rw [hl]
      rfl
    | none =>
      rw [hl] at htok
      cases hg : lookupVar frame.f_globals tok.2 with
      | some val =>
        rw [hg] at htok
        cases htok
        right
        rw [hg]
        rfl
      | none => rw [hg] at htok; cases htok

theorem attr_chain_amended_witness :
    (lookupVar frameC1.f_locals "foo").isSome ∨ (lookupVar frameC1.f_globals "foo").isSome :=
  attr_chain_amended.2 (some MAX_LENGTH) namesC1 frameC1
    ⟨"foo", 0, String.toList "<Foo>"⟩ (by decide)

/-- C7: resolution consults `f_locals` before `f_globals` — a name bound in
the local tier resolves to the local value no matter what the global tier
holds — and a name bound in neither tier is silently skipped (no annotation,
no error); `get_relevant_values` is exactly the column-sorted list of the
per-token resolutions. -/
theorem resolver_two_tier_lookup :
    (∀ (ml : Option Nat) (frame : Frame) (idx : Nat) (nm : String) (vl : PyValue),
        lookupVar frame.f_locals nm = some vl →
        resolve_name ml frame (idx, nm) = some ⟨nm, idx, format_value ml vl⟩)
    ∧ (∀ (ml : Option Nat) (frame : Frame) (idx : Nat) (nm : String),
        lookupVar frame.f_locals nm = none → lookupVar frame.f_globals nm = none →
        resolve_name ml frame (idx, nm) = none)
    ∧ (∀ (ml : Option Nat) (names : List (Nat × String)) (frame : Frame),
        get_relevant_values ml names frame
          = sortByCol (names.filterMap (resolve_name ml frame))) := by
  refine ⟨?_, ?_, ?_⟩
  · intro ml frame idx nm vl h
    rw [resolve_name]
    rw [show (idx, nm).2 = nm from rfl, h]
  · intro ml frame idx nm hl hg
    rw [resolve_name]
    rw [show (idx, nm).2 = nm from rfl, hl, hg]
  · intro ml names frame
    rfl

theorem resolver_two_tier_lookup_witness :
    resolve_name (some 128) frameW (3, "x") = some ⟨"x", 3, ['1']⟩
    ∧ resolve_name (some 128) frameW (5, "zz") = none :=
  ⟨resolver_two_tier_lookup.1 (some 128) frameW 3 "x" localVal rfl,
   resolver_two_tier_lookup.2.1 (some 128) frameW 5 "zz" rfl rfl⟩

theorem truncateRepr_length (m : Nat) (l : List Char) :
    (truncateRepr (some m) l).length ≤ m + 3 := by
  rw [truncateRepr]
  split
  · simp only [List.length_append, List.length_take,
      show (String.toList "...").length = 3 from rfl]
    omega
  · omega

/-- C6: `format_value` is total — when `repr` raises it substitutes the
`<unprintable TYPE object>` placeholder and otherwise proceeds — and with a
finite configured `max_length` the result never exceeds `max_length` plus the
length of the `...` ellipsis marker. -/
theorem format_value_total_and_bounded :
    (∀ (ml : Option Nat) (v : PyValue), v.reprR = none →
        format_value ml v = truncateRepr ml (unprintable v.typeName))
    ∧ ∀ (m : Nat) (v : PyValue),
        (format_value (some m) v).length ≤ m + (String.toList "...").length := by
  constructor
  · intro ml v h
    rw [format_value, h]
  · intro m v
    rw [format_value]
    exact truncateRepr_length m _

theorem format_value_total_and_bounded_witness :
    format_value none badVal = truncateRepr none (unprintable (String.toList "Foo"))
    ∧ (format_value (some 5) badVal).length ≤ 5 + (String.toList "...").length :=
  ⟨format_value_total_and_bounded.1 none badVal rfl,
   format_value_total_and_bounded.2 5 badVal⟩

theorem format_exception_seen_subset_aux {n : Nat} (env : Fin n → ExcData n) :
    ∀ (N : Nat) (value : Option (Fin n)) (seen : Finset (Option (Fin n))),
      excMeasure value seen ≤ N → seen ⊆ (format_exception env value seen).2 := by
  intro N
  induction N with
  | zero =>
    intro value seen hN
    match value with
    | none => rw [format_exception_none]; exact Finset.subset_insert _ _
    | some v =>
      by_cases h1 : (env v).cause ∉ insert (some v) seen
      · exact absurd (Nat.lt_of_lt_of_le (excMeasure_lt h1) hN) (Nat.not_lt_zero _)
      · by_cases h2 : (env v).context ∉ insert (some v) seen
            ∧ (env v).suppress_context = false
        · exact absurd (Nat.lt_of_lt_of_le (excMeasure_lt h2.1) hN) (Nat.not_lt_zero _)
        · rw [format_exception_noBranch env v seen (not_not.mp h1) h2]
          exact Finset.subset_insert _ _
  | succ N ih =>
    intro value seen hN
    match value with
    | none => rw [format_exception_none]; exact Finset.subset_insert _ _
    | some v =>
      by_cases h1 : (env v).cause ∉ insert (some v) seen
      · rw [format_exception_causeBranch env v seen h1]
        have hm : excMeasure ((env v).cause) (insert (some v) seen) ≤ N :=
          Nat.lt_succ_iff.mp (Nat.lt_of_lt_of_le (excMeasure_lt h1) hN)
        exact (Finset.subset_insert _ _).trans (ih _ _ hm)
      · by_cases h2 : (env v).context ∉ insert (some v) seen
            ∧ (env v).suppress_context = false
        · rw [format_exception_contextBranch env v seen (not_not.mp h1) h2.1 h2.2]
          have hm : excMeasure ((env v).context) (insert (some v) seen) ≤ N :=
            Nat.lt_succ_iff.mp (Nat.lt_of_lt_of_le (excMeasure_lt h2.1) hN)
          exact (Finset.subset_insert _ _).trans (ih _ _ hm)
        · rw [format_exception_noBranch env v seen (not_not.mp h1) h2]
          exact Finset.subset_insert _ _

/-- C4: on the cyclic chain `envCyc` (A's context is B, B's context is A,
nothing suppressed), `format_exception` terminates (it is a total function;
the concrete render below is a finished value) and renders each of the two
distinct failures exactly once; the seen-set starts as `{None}` and only ever
grows during one render; and a failure with no cause and no context never
triggers a chained recursion. -/
theorem format_exception_cycle_once :
    ((format_exception_entry envCyc (some 0)).1
        = [RenderEvent.block (some 1) none, RenderEvent.contextSep,
           RenderEvent.block (some 0) none])
    ∧ (∀ (n : Nat) (env : Fin n → ExcData n) (value : Option (Fin n))
          (seen : Finset (Option (Fin n))),
        seen ⊆ (format_exception env value seen).2)
    ∧ (∀ (n : Nat) (env : Fin n → ExcData n) (v : Fin n),
        (env v).cause = none → (env v).context = none →
        (format_exception_entry env (some v)).1 = [selfBlock env (some v)]) := by
  refine ⟨?_, ?_, ?_⟩
  · show (format_exception envCyc (some 0) ({none} : Finset (Option (Fin 2)))).1 = _
    have h1 : (envCyc 0).cause ∈ (insert (some (0 : Fin 2)) {none} : Finset (Option (Fin 2))) := by
      decide
    have h2 : (envCyc 0).context ∉ (insert (some (0 : Fin 2)) {none} : Finset (Option (Fin 2))) := by
      decide
    have h3 : (envCyc 0).suppress_context = false := by decide
    rw [format_exception_contextBranch envCyc 0 {none} h1 h2 h3]
    rw [show (envCyc 0).context = some 1 from rfl]
    have hb1 : (envCyc 1).cause
        ∈ (insert (some (1 : Fin 2)) (insert (some 0) {none}) : Finset (Option (Fin 2))) := by
      decide
    have hb2 : ¬ ((envCyc 1).context
          ∉ (insert (some (1 : Fin 2)) (insert (some 0) {none}) : Finset (Option (Fin 2)))
        ∧ (envCyc 1).suppress_context = false) := by decide
    rw [format_exception_noBranch envCyc 1 (insert (some 0) {none}) hb1 hb2]
    decide
  · intro n env value seen
    exact format_exception_seen_subset_aux env (excMeasure value seen) value seen le_rfl
  · intro n env v hc hctx
    show (format_exception env (some v) ({none} : Finset (Option (Fin n)))).1 = _
    have h1 : (env v).cause ∈ (insert (some v) {none} : Finset (Option (Fin n))) := by
      rw [hc]; exact Finset.mem_insert_of_mem (Finset.mem_singleton_self none)
    have h2 : ¬ ((env v).context ∉ (insert (some v) {none} : Finset (Option (Fin n)))
        ∧ (env v).suppress_context = false) := by
      intro hcon
      have hmem : (env v).context ∈ (insert (some v) {none} : Finset (Option (Fin n))) := by
        rw [hctx]; exact Finset.mem_insert_of_mem (Finset.mem_singleton_self none)
      exact hcon.1 hmem
    rw [format_exception_noBranch env v {none} h1 h2]

theorem format_exception_cycle_once_witness :
    ({none} : Finset (Option (Fin 1))) ⊆ (format_exception envLone (some 0) {none}).2
    ∧ (format_exception_entry envLone (some 0)).1 = [selfBlock envLone (some 0)] :=
  ⟨format_exception_cycle_once.2.1 1 envLone (some 0) {none},
   format_exception_cycle_once.2.2 1 envLone 0 rfl rfl⟩

/-- C5: when the failure at the entry point has both an unvisited cause and a
context, only the cause branch is rendered, followed by the "direct cause"
separator; when there is no cause, an unvisited context is rendered with the
"during handling" separator only when `suppress_context` is false; and
`suppress_context = true` with no cause and a context set yields no chained
block at all. -/
theorem chained_block_selection {n : Nat} (env : Fin n → ExcData n) (v : Fin n) :
    (∀ (c k : Fin n), (env v).cause = some c → c ≠ v → (env v).context = some k →
      (format_exception_entry env (some v)).1
        = (format_exception env (some c) (insert (some v) {none})).1
            ++ [RenderEvent.causeSep, selfBlock env (some v)])
    ∧ (∀ k : Fin n, (env v).cause = none → (env v).context = some k → k ≠ v →
        (env v).suppress_context = false →
        (format_exception_entry env (some v)).1
          = (format_exception env (some k) (insert (some v) {none})).1
              ++ [RenderEvent.contextSep, selfBlock env (some v)])
    ∧ (∀ k : Fin n, (env v).cause = none → (env v).context = some k →
        (env v).suppress_context = true →
        (format_exception_entry env (some v)).1 = [selfBlock env (some v)]) := by
  refine ⟨?_, ?_, ?_⟩
  · intro c k hc hcv hk
    show (format_exception env (some v) ({none} : Finset (Option (Fin n)))).1 = _
    have h1 : (env v).cause ∉ (insert (some v) {none} : Finset (Option (Fin n))) := by
      rw [hc]
      intro hmem
      rcases Finset.mem_insert.mp hmem with h | h
      · exact hcv (Option.some_injective _ h)
      · exact Option.noConfusion (Finset.mem_singleton.mp h)
    rw [format_exception_causeBranch env v {none} h1, hc]
  · intro k hc hk hkv hs
    show (format_exception env (some v) ({none} : Finset (Option (Fin n)))).1 = _
    have h1 : (env v).cause ∈ (insert (some v) {none} : Finset (Option (Fin n))) := by
      rw [hc]; exact Finset.mem_insert_of_mem (Finset.mem_singleton_self none)
    have h2 : (env v).context ∉ (insert (some v) {none} : Finset (Option (Fin n))) := by
      rw [hk]
      intro hmem
      rcases Finset.mem_insert.mp hmem with h | h
      · exact hkv (Option.some_injective _ h)
      · exact Option.noConfusion (Finset.mem_singleton.mp h)
    rw [format_exception_contextBranch env v {none} h1 h2 hs, hk]
  · intro k hc hk hs
    show (format_exception env (some v) ({none} : Finset (Option (Fin n)))).1 = _
    have h1 : (env v).cause ∈ (insert (some v) {none} : Finset (Option (Fin n))) := by
      rw [hc]; exact Finset.mem_insert_of_mem (Finset.mem_singleton_self none)
    have h2 : ¬ ((env v).context ∉ (insert (some v) {none} : Finset (Option (Fin n)))
        ∧ (env v).suppress_context = false) := by
      intro hcon
      rw [hs] at hcon
      exact Bool.noConfusion hcon.2
    rw [format_exception_noBranch env v {none} h1 h2]

theorem chained_block_selection_witness :
    ((format_exception_entry envBoth (some 0)).1
        = (format_exception envBoth (some 1) (insert (some 0) {none})).1
            ++ [RenderEvent.causeSep, selfBlock envBoth (some 0)])
    ∧ ((format_exception_entry envCtx (some 0)).1
        = (format_exception envCtx (some 1) (insert (some 0) {none})).1
            ++ [RenderEvent.contextSep, selfBlock envCtx (some 0)])
    ∧ (format_exception_entry envSupp (some 0)).1 = [selfBlock envSupp (some 0)] :=
  ⟨(chained_block_selection envBoth 0).1 1 1 rfl (by decide) rfl,
   (chained_block_selection envCtx 0).2.1 1 rfl rfl (by decide) rfl,
   (chained_block_selection envSupp 0).2.2 1 rfl rfl rfl⟩

/-- C9: the seen-set distinguishes chain links by identity, not content — two
structurally-equal but distinct exception objects (`envPair` gives ids 0 and
1 identical flag, message and source fields, with 0's cause being 1) are both
visited and rendered, each exactly once. -/
theorem seen_set_identity_keyed (isA : Bool) (sv cs : List Char) :
    (format_exception_entry (envPair isA sv cs) (some 0)).1
      = [RenderEvent.block (some 1) (assertionArgsUpdate isA sv cs),
         RenderEvent.causeSep,
         RenderEvent.block (some 0) (assertionArgsUpdate isA sv cs)] := by
  show (format_exception (envPair isA sv cs) (some 0) ({none} : Finset (Option (Fin 2)))).1 = _
  have h1 : (envPair isA sv cs 0).cause
      ∉ (insert (some (0 : Fin 2)) {none} : Finset (Option (Fin 2))) := by
    rw [show (envPair isA sv cs 0).cause = some 1 from rfl]
    decide
  rw [format_exception_causeBranch (envPair isA sv cs) 0 {none} h1]
  rw [show (envPair isA sv cs 0).cause = some 1 from rfl]
  have hb1 : (envPair isA sv cs 1).cause
      ∈ (insert (some (1 : Fin 2)) (insert (some 0) {none}) : Finset (Option (Fin 2))) := by
    rw [show (envPair isA sv cs 1).cause = none from rfl]
    decide
  have hb2 : ¬ ((envPair isA sv cs 1).context
        ∉ (insert (some (1 : Fin 2)) (insert (some 0) {none}) : Finset (Option (Fin 2)))
      ∧ (envPair isA sv cs 1).suppress_context = false) := by
    rw [show (envPair isA sv cs 1).context = none from rfl]
    intro hcon
    exact hcon.1 (by decide)
  rw [format_exception_noBranch (envPair isA sv cs) 1 (insert (some 0) {none}) hb1 hb2]
  rfl

theorem format_exception_block_update_aux {n : Nat} (env : Fin n → ExcData n) :
    ∀ (N : Nat) (value : Option (Fin n)) (seen : Finset (Option (Fin n))),
      excMeasure value seen ≤ N →
      ∀ (w : Option (Fin n)) (u : Option (List (List Char))),
        RenderEvent.block w u ∈ (format_exception env value seen).1 →
        u = assertionArgsUpdate (isAssertionOf env w) (strOfValue env w)
              (coloredSourceOf env w) := by
  intro N
  induction N with
  | zero =>
    intro value seen hN w u hmem
    match value with
    | none =>
      rw [format_exception_none] at hmem
      rcases List.mem_singleton.mp hmem with h
      cases (show RenderEvent.block w u = selfBlock env none from h)
      rfl
    | some v =>
      by_cases h1 : (env v).cause ∉ insert (some v) seen
      · exact absurd (Nat.lt_of_lt_of_le (excMeasure_lt h1) hN) (Nat.not_lt_zero _)
      · by_cases h2 : (env v).context ∉ insert (some v) seen
            ∧ (env v).suppress_context = false
        · exact absurd (Nat.lt_of_lt_of_le (excMeasure_lt h2.1) hN) (Nat.not_lt_zero _)
        · rw [format_exception_noBranch env v seen (not_not.mp h1) h2] at hmem
          cases (show RenderEvent.block w u = selfBlock env (some v) from
            List.mem_singleton.mp hmem)
          rfl
  | succ N ih =>
    intro value seen hN w u hmem
    match value with
    | none =>
      rw [format_exception_none] at hmem
      cases (show RenderEvent.block w u = selfBlock env none from
        List.mem_singleton.mp hmem)
      rfl
    | some v =>
      by_cases h1 : (env v).cause ∉ insert (some v) seen
      · rw [format_exception_causeBranch env v seen h1] at hmem
        have hm : excMeasure ((env v).cause) (insert (some v) seen) ≤ N :=
          Nat.lt_succ_iff.mp (Nat.lt_of_lt_of_le (excMeasure_lt h1) hN)
        rcases List.mem_append.mp hmem with h | h
        · exact ih _ _ hm w u h
        · rcases List.mem_cons.mp h with h' | h'
          · exact RenderEvent.noConfusion h'
          · cases (show RenderEvent.block w u = selfBlock env (some v) from
              List.mem_singleton.mp h')
            rfl
      · by_cases h2 : (env v).context ∉ insert (some v) seen
            ∧ (env v).suppress_context = false
        · rw [format_exception_contextBranch env v seen (not_not.mp h1) h2.1 h2.2] at hmem
          have hm : excMeasure ((env v).context) (insert (some v) seen) ≤ N :=
            Nat.lt_succ_iff.mp (Nat.lt_of_lt_of_le (excMeasure_lt h2.1) hN)
          rcases List.mem_append.mp hmem with h | h
          · exact ih _ _ hm w u h
          · rcases List.mem_cons.mp h with h' | h'
            · exact RenderEvent.noConfusion h'
            · cases (show RenderEvent.block w u = selfBlock env (some v) from
                List.mem_singleton.mp h')
              rfl
        · rw [format_exception_noBranch env v seen (not_not.mp h1) h2] at hmem
          cases (show RenderEvent.block w u = selfBlock env (some v) from
            List.mem_singleton.mp hmem)
          rfl

/-- C10: during a render, the `args` of a rendered failure object is
reassigned exactly when the failure's type is `AssertionError` and its `str`
is empty, and then to the one-element tuple holding the colorized source of
the last rendered frame; every other rendered failure is left unmodified. -/
theorem args_mutation_iff_bare_assert {n : Nat} (env : Fin n → ExcData n)
    (value : Option (Fin n)) (seen : Finset (Option (Fin n)))
    (w : Option (Fin n)) (u : Option (List (List Char)))
    (hmem : RenderEvent.block w u ∈ (format_exception env value seen).1) :
    (strOfValue env w = [] ∧ isAssertionOf env w = true →
      u = some [coloredSourceOf env w])
    ∧ (¬ (strOfValue env w = [] ∧ isAssertionOf env w = true) → u = none) := by
  have hu := format_exception_block_update_aux env (excMeasure value seen) value seen
    le_rfl w u hmem
  constructor
  · intro hc
    rw [hu, assertionArgsUpdate, if_pos hc]
  · intro hc
    rw [hu, assertionArgsUpdate, if_neg hc]

theorem args_mutation_iff_bare_assert_witness :
    (RenderEvent.block (some 0) (some [['c']])
        ∈ (format_exception envAssert (some 0) {none}).1)
    ∧ some [['c']] = some [coloredSourceOf envAssert (some 0)] := by
  have hmem : RenderEvent.block (some (0 : Fin 1)) (some [['c']])
      ∈ (format_exception envAssert (some 0) {none}).1 := by
    have h1 : (envAssert 0).cause
        ∈ (insert (some (0 : Fin 1)) {none} : Finset (Option (Fin 1))) := by decide
    have h2 : ¬ ((envAssert 0).context
          ∉ (insert (some (0 : Fin 1)) {none} : Finset (Option (Fin 1)))
        ∧ (envAssert 0).suppress_context = false) := by decide
    rw [format_exception_noBranch envAssert 0 {none} h1 h2]
    decide
  exact ⟨hmem,
    (args_mutation_iff_bare_assert envAssert (some 0) {none} (some 0)
        (some [['c']]) hmem).1 ⟨rfl, rfl⟩⟩

end BetterExceptions
